import Mathlib

/-!
Shallow embedding of the CRPropa-Monopoles propagation core: the 3-vector
and particle-state data model, the adaptive Boris-push integrator
(MonopolePropagationBP), the elastic-scattering interaction loop
(ElasticScattering) and the monopole radiation module (MonopoleRadiation).
Doubles are embedded as real numbers; the random number generator is
embedded as an explicit stream of draws; C++ exceptions are embedded as
Except values.
-/

namespace CRPropa

noncomputable section

/-- Speed of light constant from the Units header, in SI base units. -/
def c_light : ℝ := 299792458

/-- Square of the speed of light. -/
def c_squared : ℝ := c_light * c_light

/-- Vacuum permeability constant from the Units header. -/
def mu0 : ℝ := 4 * Real.pi * 1e-7

/-- Three-component real vector, embedding the Vector3d class used
throughout the source. -/
structure Vector3d where
  x : ℝ
  y : ℝ
  z : ℝ
  deriving DecidableEq

namespace Vector3d

instance : Zero Vector3d := ⟨⟨0, 0, 0⟩⟩

instance : Add Vector3d := ⟨fun a b => ⟨a.x + b.x, a.y + b.y, a.z + b.z⟩⟩

instance : Sub Vector3d := ⟨fun a b => ⟨a.x - b.x, a.y - b.y, a.z - b.z⟩⟩

instance : HMul Vector3d ℝ Vector3d := ⟨fun a c => ⟨a.x * c, a.y * c, a.z * c⟩⟩

instance : HDiv Vector3d ℝ Vector3d := ⟨fun a c => ⟨a.x / c, a.y / c, a.z / c⟩⟩

theorem zero_def : (0 : Vector3d) = ⟨0, 0, 0⟩ := rfl

@[simp] theorem zero_x : (0 : Vector3d).x = 0 := rfl

@[simp] theorem zero_y : (0 : Vector3d).y = 0 := rfl

@[simp] theorem zero_z : (0 : Vector3d).z = 0 := rfl

theorem add_def (a b : Vector3d) : a + b = ⟨a.x + b.x, a.y + b.y, a.z + b.z⟩ := rfl

theorem sub_def (a b : Vector3d) : a - b = ⟨a.x - b.x, a.y - b.y, a.z - b.z⟩ := rfl

theorem smul_def (a : Vector3d) (c : ℝ) : a * c = ⟨a.x * c, a.y * c, a.z * c⟩ := rfl

theorem div_def (a : Vector3d) (c : ℝ) : a / c = ⟨a.x / c, a.y / c, a.z / c⟩ := rfl

/-- Dot product, embedding Vector3d::dot. -/
def dot (a b : Vector3d) : ℝ := a.x * b.x + a.y * b.y + a.z * b.z

/-- Cross product, embedding Vector3d::cross. -/
def cross (a b : Vector3d) : Vector3d :=
  ⟨a.y * b.z - a.z * b.y, a.z * b.x - a.x * b.z, a.x * b.y - a.y * b.x⟩

/-- Euclidean norm, embedding Vector3d::getR. -/
def getR (a : Vector3d) : ℝ := Real.sqrt (a.x * a.x + a.y * a.y + a.z * a.z)

/-- Modelled from the spec: Vector3d::getUnitVector is declared in the
CRPropa Vector3 header, which is not among the provided sources; per the
spec the direction is renormalized to unit length, i.e. the vector is
divided by its norm. -/
def getUnitVector (a : Vector3d) : Vector3d := a / a.getR

theorem getR_nonneg (a : Vector3d) : 0 ≤ a.getR := Real.sqrt_nonneg _

theorem getR_eq_zero_iff (a : Vector3d) : a.getR = 0 ↔ a = 0 := by
  unfold getR
  rw [show a.x * a.x + a.y * a.y + a.z * a.z = a.x ^ 2 + a.y ^ 2 + a.z ^ 2 by ring]
  constructor
  · intro h
    have hsum : a.x ^ 2 + a.y ^ 2 + a.z ^ 2 = 0 := by
      have := Real.sqrt_eq_zero (by positivity) |>.mp h
      linarith [sq_nonneg a.x, sq_nonneg a.y, sq_nonneg a.z, this]
    have hx : a.x = 0 := by nlinarith [sq_nonneg a.x, sq_nonneg a.y, sq_nonneg a.z]
    have hy : a.y = 0 := by nlinarith [sq_nonneg a.x, sq_nonneg a.y, sq_nonneg a.z]
    have hz : a.z = 0 := by nlinarith [sq_nonneg a.x, sq_nonneg a.y, sq_nonneg a.z]
    cases a
    simp_all [zero_def]
  · rintro rfl
    simp [zero_def, Real.sqrt_eq_zero]

theorem getR_div (a : Vector3d) (c : ℝ) (hc : 0 ≤ c) : (a / c).getR = a.getR / c := by
  unfold getR
  rw [div_def]
  rcases eq_or_lt_of_le hc with hc0 | hcpos
  · simp [← hc0]
  · have hnum : (0:ℝ) ≤ a.x * a.x + a.y * a.y + a.z * a.z := by
      nlinarith [mul_self_nonneg a.x, mul_self_nonneg a.y, mul_self_nonneg a.z]
    rw [show a.x / c * (a.x / c) + a.y / c * (a.y / c) + a.z / c * (a.z / c)
        = (a.x * a.x + a.y * a.y + a.z * a.z) / c ^ 2 by ring]
    rw [Real.sqrt_div hnum, Real.sqrt_sq hc]

/-- Norm of the renormalized vector is one for every non-zero vector. -/
theorem getR_getUnitVector (a : Vector3d) (ha : a ≠ 0) : a.getUnitVector.getR = 1 := by
  have hr : a.getR ≠ 0 := fun h => ha ((getR_eq_zero_iff a).mp h)
  rw [getUnitVector, getR_div a a.getR (getR_nonneg a), div_self hr]

end Vector3d

/-- Particle state record, embedding the ParticleState class: id, energy,
position, direction, mass, electric charge, magnetic charge. -/
structure ParticleState where
  id : ℤ
  energy : ℝ
  position : Vector3d
  direction : Vector3d
  pmass : ℝ
  charge : ℝ
  mcharge : ℝ

namespace ParticleState

/-- Embedding of ParticleState::setPosition. -/
def setPosition (s : ParticleState) (pos : Vector3d) : ParticleState :=
  { s with position := pos }

/-- Embedding of ParticleState::setDirection: the argument is divided by
its norm before being stored. -/
def setDirection (s : ParticleState) (dir : Vector3d) : ParticleState :=
  { s with direction := dir / dir.getR }

/-- Embedding of ParticleState::setEnergy: the stored energy is
max(0, newEnergy), preventing negative energies. -/
def setEnergy (s : ParticleState) (newEnergy : ℝ) : ParticleState :=
  { s with energy := max 0 newEnergy }

/-- Embedding of ParticleState::getLorentzFactor (current version):
1 + energy / (pmass * c^2). -/
def getLorentzFactor (s : ParticleState) : ℝ :=
  1 + s.energy / (s.pmass * c_squared)

/-- Embedding of ParticleState::setLorentzFactor (current version): the
Lorentz factor is clamped to max(0, lf), then energy = (lf - 1) * pmass * c^2. -/
def setLorentzFactor (s : ParticleState) (lf : ℝ) : ParticleState :=
  { s with energy := (max 0 lf - 1) * s.pmass * c_squared }

/-- Embedding of ParticleState::getVelocity (current version):
direction * c * sqrt(1 - 1/gamma^2) with gamma = 1 + E/(m c^2). -/
def getVelocity (s : ParticleState) : Vector3d :=
  s.direction * (c_light * Real.sqrt (1 - 1 / (1 + s.energy / s.pmass / c_squared)
    / (1 + s.energy / s.pmass / c_squared)))

end ParticleState

/-- One secondary particle appended by Candidate::addSecondary: particle
id, energy, position, statistical weight and interaction tag. -/
structure Secondary where
  id : ℤ
  energy : ℝ
  position : Vector3d
  weight : ℝ
  tag : String

/-- Modelled from the spec: the Candidate class is not among the provided
sources (only its callers are). Per the data model of the spec, a
Candidate holds the current and previous particle states, the step
bookkeeping (currentStep, nextStep), the redshift, and the appendable
list of secondaries; the monopole radiation module additionally records
the radiated energy of the step (setStepRadiation). -/
structure Candidate where
  current : ParticleState
  previous : ParticleState
  currentStep : ℝ
  nextStep : ℝ
  redshift : ℝ
  secondaries : List Secondary
  stepRadiation : ℝ

/-- Modelled from the spec: the clip helper from the CRPropa Common header
is not among the provided sources; it clamps its first argument into the
closed interval given by the other two, as in step 1 of the integrator
algorithm (clamp(candidate.nextStep, minStep, maxStep)). -/
def clip (x lo hi : ℝ) : ℝ := max lo (min x hi)

/-- Phase-space point of the integrator, embedding the struct Y declared
in the MonopolePropagationBP header: a position x and a direction u. -/
structure Y where
  x : Vector3d
  u : Vector3d

/-- Outcome of the adaptive step-control loop: either a step was accepted
(with the accepted phase point, the step actually taken and the step
proposed for the next call), or the fuel bounding the number of loop
iterations ran out. -/
inductive LoopResult where
  | accepted (yOut : Y) (step newStep : ℝ)
  | fuelOut

/-- The MonopolePropagationBP module: a magnetic field sampler (absent
when field.valid() is false, and returning an Except to embed C++
exceptions thrown during evaluation), plus tolerance, minStep, maxStep. -/
structure MonopolePropagationBP where
  field : Option (Vector3d → ℝ → Except String Vector3d)
  tolerance : ℝ
  minStep : ℝ
  maxStep : ℝ

namespace MonopolePropagationBP

/-- Embedding of MonopolePropagationBP::getFieldAtPosition: B starts as
the zero vector; if the field is valid it is evaluated at (pos, z), and
any exception leaves B at zero. -/
def getFieldAtPosition (bp : MonopolePropagationBP) (pos : Vector3d) (z : ℝ) : Vector3d :=
  match bp.field with
  | none => 0
  | some f =>
    match f pos z with
    | Except.ok B => B
    | Except.error _ => 0

/-- Embedding of MonopolePropagationBP::dY: half leap-frog position step,
field sample at the half-stepped position, Boris push of the direction by
g*B*step/m/c^2, then the second half position step. -/
def dY (bp : MonopolePropagationBP) (pos dir : Vector3d) (step z g m : ℝ) : Y :=
  let pos1 := pos + dir * (step / 2)
  let B := bp.getFieldAtPosition pos1 z
  let dir1 := dir + B * (g * step / m / c_squared)
  let pos2 := pos1 + dir1 * (step / 2)
  ⟨pos2, dir1⟩

/-- Embedding of MonopolePropagationBP::errorEstimation: the distance of
the two candidate positions divided by step * (1 - 1/4). -/
def errorEstimation (bp : MonopolePropagationBP) (x1 x2 : Vector3d) (step : ℝ) : ℝ :=
  (x1 - x2).getR / (step * (1 - 1 / 4))

/-- Embedding of MonopolePropagationBP::tryStep: the full-step result
together with the scalar error estimate obtained by comparing it with two
half steps. In the source the scalar is stored into the struct Y through
a conversion declared in the missing header; modelled from the spec,
r = error / tolerance, so the scalar estimate itself is returned here. -/
def tryStep (bp : MonopolePropagationBP) (y : Y) (h z m g : ℝ) : Y × ℝ :=
  let out := bp.dY y.x y.u h z g m
  let outHelp := bp.dY y.x y.u (h / 2) z g m
  let outCompare := bp.dY outHelp.x outHelp.u (h / 2) z g m
  (out, bp.errorEstimation out.x outCompare.x h)

/-- Growth proposal of the accepted branch of the step-control loop:
newStep = min(min(step * 0.95 * r^(-0.2), 5 * step), maxStep). In IEEE
arithmetic pow(0, -0.2) is +infinity, so for r = 0 the two min clauses
select min(5 * step, maxStep); the real embedding makes that case
explicit. -/
def proposeGrow (bp : MonopolePropagationBP) (step r : ℝ) : ℝ :=
  if r = 0 then min (5 * step) bp.maxStep
  else min (min (step * 0.95 * r ^ (-(0.2:ℝ))) (5 * step)) bp.maxStep

/-- Embedding of the adaptive while(true) loop of
MonopolePropagationBP::process (lines 91-111), with an explicit fuel
bounding the number of iterations. The loop keeps newStep equal to step
at every entry, so only step is threaded through. -/
def adaptiveLoop (bp : MonopolePropagationBP) (yIn : Y) (z m g : ℝ) :
    ℕ → ℝ → LoopResult
  | 0, _ => LoopResult.fuelOut
  | n + 1, step =>
    let res := bp.tryStep yIn step z m g
    let r := res.2 / bp.tolerance
    if 1 < r then
      if step = bp.minStep then LoopResult.accepted res.1 step step
      else
        adaptiveLoop bp yIn z m g n
          (max (max (step * 0.95 * r ^ (-(0.2:ℝ))) (0.1 * step)) bp.minStep)
    else
      LoopResult.accepted res.1 step
        (if step ≠ bp.maxStep then bp.proposeGrow step r else step)

/-- Step-control outcome of MonopolePropagationBP::process for a charged
candidate: in fixed-step mode (minStep = maxStep) a single tryStep at
maxStep is accepted directly, otherwise the adaptive loop runs starting
from clip(nextStep, minStep, maxStep). -/
def loopOutcome (bp : MonopolePropagationBP) (fuel : ℕ) (cand : Candidate) : LoopResult :=
  let current := cand.current
  let yIn : Y := ⟨current.position, current.direction⟩
  let g := current.mcharge
  let z := cand.redshift
  let m := current.energy / (c_light * c_light)
  if bp.minStep = bp.maxStep then
    LoopResult.accepted (bp.tryStep yIn bp.maxStep z m g).1 bp.maxStep bp.maxStep
  else
    bp.adaptiveLoop yIn z m g fuel (clip cand.nextStep bp.minStep bp.maxStep)

/-- Embedding of MonopolePropagationBP::process. Neutral particles
(g = 0) take the rectilinear fast path; otherwise the step-control loop
runs and, on acceptance, position, direction and the monopole energy
update are applied; none is returned only when the loop fuel runs out. -/
def process (bp : MonopolePropagationBP) (fuel : ℕ) (cand : Candidate) :
    Option Candidate :=
  let current := cand.current
  let yIn : Y := ⟨current.position, current.direction⟩
  let g := current.mcharge
  if g = 0 then
    let step := clip cand.nextStep bp.minStep bp.maxStep
    some { cand with
      previous := current
      current := current.setPosition (yIn.x + yIn.u * step)
      currentStep := step
      nextStep := bp.maxStep }
  else
    match bp.loopOutcome fuel cand with
    | LoopResult.fuelOut => none
    | LoopResult.accepted yOut step newStep =>
      let st1 := (current.setPosition yOut.x).setDirection yOut.u.getUnitVector
      let B := bp.getFieldAtPosition st1.position cand.redshift
      let E := st1.energy
      let dE := g * B.dot (st1.direction * step)
      let st2 := st1.setEnergy (E + dE)
      some { cand with
        previous := current
        current := st2
        currentStep := step
        nextStep := newStep }

/-- Iterated application of process, embedding repeated calls of the
module on the same candidate (used by the end-to-end scenario). -/
def run (bp : MonopolePropagationBP) (fuel : ℕ) : ℕ → Candidate → Option Candidate
  | 0, c => some c
  | n + 1, c =>
    match bp.process fuel c with
    | none => none
    | some c1 => bp.run fuel n c1

end MonopolePropagationBP

/-- Electronvolt constant from the Units header, in SI base units. -/
def eV : ℝ := 1.60217657e-19

/-- Embedding of isNucleus from ParticleID.cpp: the neutron id 2112 counts
as a nucleus; every other id defers to HepPID::isNucleus. Modelled from
the spec for the HepPID part: HepPID is an external library, and nuclear
codes follow the ten-digit scheme produced by nucleusId
(1000000000 + Z*10000 + A*10), so ids of absolute value below 1000000000
are not nuclei. -/
def isNucleus (id : ℤ) : Bool :=
  decide (id = 2112 ∨ 1000000000 ≤ id.natAbs)

/-- Embedding of massNumber from ParticleID.cpp: 1 for the neutron id
2112, otherwise HepPID::A. Modelled from the spec for the HepPID part:
in the ten-digit nuclear code the mass number occupies digits 2-4 from
the right. -/
def massNumber (id : ℤ) : ℤ :=
  if id = 2112 then 1 else ((id.natAbs / 10) % 1000 : ℕ)

/-- Embedding of chargeNumber from ParticleID.cpp, deferring to
HepPID::Z. Modelled from the spec for the HepPID part: in the ten-digit
nuclear code the charge number occupies digits 5-7 from the right. -/
def chargeNumber (id : ℤ) : ℤ :=
  ((id.natAbs / 10000) % 1000 : ℕ)

/-- Modelled from the spec: interpolateEquidistant from the CRPropa
Common header is not among the provided sources. Per the spec it
interpolates linearly on a log-equidistant grid and returns the tabulated
endpoint value at (and beyond) the lower and upper bounds. -/
def interpolateEquidistant (x lo hi : ℝ) (tab : List ℝ) : ℝ :=
  if x ≤ lo then tab.headD 0
  else if hi ≤ x then tab.getLastD 0
  else
    let r := (x - lo) / (hi - lo) * ((tab.length : ℝ) - 1)
    let i := ⌊r⌋₊
    tab.getD i 0 + (r - (i : ℝ)) * (tab.getD (i + 1) 0 - tab.getD i 0)

namespace ElasticScattering

/-- Minimum log10 Lorentz factor of the rate table. -/
def lgmin : ℝ := 6

/-- Maximum log10 Lorentz factor of the rate table. -/
def lgmax : ℝ := 14

/-- Number of Lorentz-factor steps of the rate table. -/
def nlg : ℕ := 201

/-- Minimum log10 background-photon energy of the CDF table. -/
def epsmin : ℝ := Real.logb 10 (2 * eV) + 3

/-- Maximum log10 background-photon energy of the CDF table. -/
def epsmax : ℝ := Real.logb 10 (2 * eV) + 8.12

/-- Number of background-photon energies of the CDF table. -/
def neps : ℕ := 513

end ElasticScattering

/-- Random draws consumed by one pass of the ElasticScattering interaction
loop: u drives the free path; j is the background-photon energy bin
returned by randBin on the tabulated CDF (an external random draw, already
decremented by one as in the source); u2 places the energy inside that
bin; u3 drives cosTheta; u4 places the interaction point between the
previous and the current position. -/
structure ESDraw where
  u : ℝ
  j : ℕ
  u2 : ℝ
  u3 : ℝ
  u4 : ℝ

/-- The ElasticScattering module: its photon field enters only through
getRedshiftScaling, and the tabulated rates and the interaction tag are
loaded at construction. -/
structure ElasticScattering where
  scaling : ℝ → ℝ
  tabRate : List ℝ
  interactionTag : String

namespace ElasticScattering

/-- Interaction rate of one pass of the loop in
ElasticScattering::process: the interpolated tabulated rate, scaled by
Z*N/A (TRK scaling) and by (1+z)^2 times the photon-field redshift
scaling (cosmological scaling). -/
def rate (es : ElasticScattering) (lg z : ℝ) (A Z N : ℤ) : ℝ :=
  interpolateEquidistant lg lgmin lgmax es.tabRate
    * ((Z * N : ℤ) : ℝ) / (A : ℝ)
    * ((1 + z) ^ 2 * es.scaling z)

/-- Secondary photon appended by one interaction of
ElasticScattering::process: the background-photon energy is drawn from
the CDF bin j, boosted to the lab frame with a random cosTheta, and the
photon is placed between the previous and current position (the position
interpolation is modelled from the spec, Random being external). -/
def secondaryOf (es : ElasticScattering) (lf : ℝ) (prevPos curPos : Vector3d)
    (d : ESDraw) : Secondary :=
  let binWidth := (epsmax - epsmin) / ((neps : ℝ) - 1)
  let eps := (10 : ℝ) ^ (epsmin + ((d.j : ℝ) + d.u2) * binWidth)
  let cosTheta := 2 * d.u3 - 1
  let E := eps * lf * (1 - cosTheta)
  ⟨22, E, prevPos + (curPos - prevPos) * d.u4, 1, es.interactionTag⟩

/-- Embedding of the while loop of ElasticScattering::process (lines
98-125): while the remaining step is positive, draw an exponential free
path -log(u)/rate; if the remaining step is smaller than the free path,
stop without interacting; otherwise append one secondary photon, reduce
the remaining step by the free path, and repeat. The draw list bounds the
number of iterations. -/
def loop (es : ElasticScattering) (lg z lf : ℝ) (A Z N : ℤ)
    (prevPos curPos : Vector3d) : List ESDraw → ℝ → List Secondary
  | [], _ => []
  | d :: rest, step =>
    if 0 < step then
      let rate := es.rate lg z A Z N
      let randDist := -Real.log d.u / rate
      if step < randDist then []
      else
        es.secondaryOf lf prevPos curPos d ::
          es.loop lg z lf A Z N prevPos curPos rest (step - randDist)
    else []

/-- Embedding of ElasticScattering::process: non-nuclei and candidates
whose boosted log10 Lorentz factor falls outside [lgmin, lgmax] are left
untouched; otherwise the interaction loop runs over the current step and
its secondaries are appended to the candidate. -/
def process (es : ElasticScattering) (draws : List ESDraw) (cand : Candidate) :
    Candidate :=
  let id := cand.current.id
  if ¬ isNucleus id then cand
  else
    let z := cand.redshift
    let lg := Real.logb 10 (cand.current.getLorentzFactor * (1 + z))
    if lg < lgmin ∨ lgmax < lg then cand
    else
      let A := massNumber id
      let Z := chargeNumber id
      let N := A - Z
      let secs := es.loop lg z cand.current.getLorentzFactor A Z N
        cand.previous.position cand.current.position draws cand.currentStep
      { cand with secondaries := cand.secondaries ++ secs }

end ElasticScattering

/-- The MonopoleRadiation module: an optional magnetic field (no
exception handling appears around its evaluation in this module), the
root-mean-square field used when no field is set, and the photon and
thinning configuration. -/
structure MonopoleRadiation where
  field : Option (Vector3d → ℝ → Vector3d)
  Brms : ℝ
  havePhotons : Bool
  thinning : ℝ
  limit : ℝ
  maximumSamples : ℤ
  secondaryThreshold : ℝ
  interactionTag : String

namespace MonopoleRadiation

/-- Perpendicular field strength used by MonopoleRadiation::process: the
norm of the field cross the direction when a field is set, otherwise the
average perpendicular component sqrt(2/3) * Brms, scaled by (1+z)^2. -/
def perpB (mr : MonopoleRadiation) (cand : Candidate) : ℝ :=
  (match mr.field with
    | some f => ((f cand.current.position cand.redshift).cross
        cand.current.direction).getR
    | none => Real.sqrt (2 / 3) * mr.Brms) * (1 + cand.redshift) ^ 2

/-- Radiated energy per unit path of MonopoleRadiation::process, from
Jackson (14.26). -/
def dEdxOf (mr : MonopoleRadiation) (cand : Candidate) : ℝ :=
  let lf := cand.current.getLorentzFactor
  let step := cand.currentStep / (1 + cand.redshift)
  let beta := cand.current.getVelocity / c_light
  let dbeta := (cand.current.getVelocity - cand.previous.getVelocity) / step
  mu0 / 6 / Real.pi * lf ^ 6 * (|cand.current.mcharge| / c_light) ^ 2
    * (dbeta.dot dbeta - (beta.cross dbeta).dot (beta.cross dbeta))

/-- Embedding of MonopoleRadiation::process: neutral candidates are left
untouched; otherwise the perpendicular field strength, the radiated
energy dE = step * dEdx, the energy update and the next-step limit are
applied. The photon-sampling and thinning block of the source (lines
149-206) is commented out, so process ends here even when havePhotons is
set and no secondary is ever appended. -/
def process (mr : MonopoleRadiation) (cand : Candidate) : Candidate :=
  let mcharge := |cand.current.mcharge|
  if mcharge = 0 then cand
  else
    let B := mr.perpB cand
    let step := cand.currentStep / (1 + cand.redshift)
    let dEdx := mr.dEdxOf cand
    let dE := step * dEdx
    let E := cand.current.energy
    { cand with
      stepRadiation := dE
      current := cand.current.setEnergy (E - dE)
      nextStep := min cand.nextStep (mr.limit * E / dEdx) }

end MonopoleRadiation

/-- Concrete adaptive integrator used to exercise the step-control loop:
a linear field B(pos) = (0, 0, 6 * pos.x), tolerance 1/2, minStep 1/2,
maxStep 10. -/
def bpLin : MonopolePropagationBP where
  field := some fun pos _ => Except.ok ⟨0, 0, 6 * pos.x⟩
  tolerance := 1/2
  minStep := 1/2
  maxStep := 10

/-- Concrete radiation module with secondary photons requested and
thinning exponent 1/2. -/
def mrThin : MonopoleRadiation where
  field := none
  Brms := 1
  havePhotons := true
  thinning := 1/2
  limit := 1/10
  maximumSamples := 10
  secondaryThreshold := 1
  interactionTag := "monrad"

/-- Concrete magnetically charged candidate for the radiation module. -/
def candMono : Candidate where
  current := ⟨4110000, 5, ⟨1, 0, 0⟩, ⟨1, 0, 0⟩, 1, 0, 1⟩
  previous := ⟨4110000, 5, 0, ⟨1, 0, 0⟩, 1, 0, 1⟩
  currentStep := 1
  nextStep := 1
  redshift := 0
  secondaries := []
  stepRadiation := 0

/-- Fixed-step integrator with unit step and no field, as produced by the
fixed-step constructor (tolerance 0.42), for the end-to-end neutral
scenario. -/
def bp8 : MonopolePropagationBP where
  field := none
  tolerance := 0.42
  minStep := 1
  maxStep := 1

/-- Photon candidate (id 22, zero charges) at the origin with direction
(1, 0, 0). -/
def cand8 : Candidate where
  current := ⟨22, 5, 0, ⟨1, 0, 0⟩, 0, 0, 0⟩
  previous := ⟨22, 5, 0, ⟨1, 0, 0⟩, 0, 0, 0⟩
  currentStep := 0
  nextStep := 1
  redshift := 0
  secondaries := []
  stepRadiation := 0

/-- The photon candidate of the neutral scenario after k unit steps
(k at least 1): at position (k, 0, 0), previous position (k-1, 0, 0),
direction, energy and secondaries unchanged. -/
def cand8at (k : ℕ) : Candidate where
  current := ⟨22, 5, ⟨(k : ℝ), 0, 0⟩, ⟨1, 0, 0⟩, 0, 0, 0⟩
  previous := ⟨22, 5, ⟨(k : ℝ) - 1, 0, 0⟩, ⟨1, 0, 0⟩, 0, 0, 0⟩
  currentStep := 1
  nextStep := 1
  redshift := 0
  secondaries := []
  stepRadiation := 0

/-- Elastic-scattering module with an empty (zero-density) background for
the neutral scenario. -/
def es8 : ElasticScattering where
  scaling := fun _ => 0
  tabRate := []
  interactionTag := "elastic"

/-- Radiation module for the neutral scenario. -/
def mr8 : MonopoleRadiation where
  field := none
  Brms := 0
  havePhotons := true
  thinning := 0
  limit := 1/10
  maximumSamples := 0
  secondaryThreshold := 1
  interactionTag := "monrad"

end

/-! Theorems settling the claims. -/

/-- Rectilinear fast path of the integrator: a candidate with zero
magnetic charge is advanced by direction * clip(nextStep, minStep,
maxStep), with nothing else of its state touched. -/
theorem MonopolePropagationBP.process_neutral (bp : MonopolePropagationBP)
    (fuel : ℕ) (cand : Candidate) (h : cand.current.mcharge = 0) :
    bp.process fuel cand = some { cand with
      previous := cand.current
      current := cand.current.setPosition (cand.current.position +
        cand.current.direction * clip cand.nextStep bp.minStep bp.maxStep)
      currentStep := clip cand.nextStep bp.minStep bp.maxStep
      nextStep := bp.maxStep } := by
  unfold MonopolePropagationBP.process
  rw [if_pos h]

/-- Unfolding of one iteration of the repeated integrator runs. -/
theorem MonopolePropagationBP.run_succ (bp : MonopolePropagationBP) (fuel n : ℕ)
    (c c1 : Candidate) (h : bp.process fuel c = some c1) :
    bp.run fuel (n + 1) c = bp.run fuel n c1 := by
  simp only [MonopolePropagationBP.run, h]

/-- First unit step of the neutral scenario. -/
theorem bp8_step0 : bp8.process 1 cand8 = some (cand8at 1) := by
  rw [MonopolePropagationBP.process_neutral bp8 1 cand8 rfl]
  congr 1
  simp [cand8, cand8at, bp8, clip, ParticleState.setPosition, Vector3d.add_def,
    Vector3d.smul_def, Vector3d.zero_def]

/-- Subsequent unit steps of the neutral scenario. -/
theorem bp8_step (k : ℕ) : bp8.process 1 (cand8at k) = some (cand8at (k + 1)) := by
  rw [MonopolePropagationBP.process_neutral bp8 1 (cand8at k) rfl]
  congr 1
  simp [cand8at, bp8, clip, ParticleState.setPosition, Vector3d.add_def,
    Vector3d.smul_def]

/-- Claim C2: for every attempted step of size h, the local error estimate
returned by tryStep equals |out.position - compare.position| divided by
h * (1 - 1/4), where out is one application of dY with the full step h and
compare is dY applied twice with step h/2, the second application starting
from the result of the first. -/
theorem C2_error_estimate (bp : MonopolePropagationBP) (y : Y) (h z m g : ℝ) :
    (bp.tryStep y h z m g).2 =
      ((bp.dY y.x y.u h z g m).x -
        (bp.dY (bp.dY y.x y.u (h / 2) z g m).x
          (bp.dY y.x y.u (h / 2) z g m).u (h / 2) z g m).x).getR
      / (h * (1 - 1 / 4)) := rfl

/-- Claim C10: for every position and redshift, an invalid (absent) field
sampler and a field evaluation that throws an exception both make
getFieldAtPosition return the zero vector instead of propagating the
error. -/
theorem C10_field_failure_gives_zero (bp : MonopolePropagationBP)
    (pos : Vector3d) (z : ℝ) :
    (bp.field = none → bp.getFieldAtPosition pos z = 0) ∧
    (∀ f msg, bp.field = some f → f pos z = Except.error msg →
      bp.getFieldAtPosition pos z = 0) := by
  constructor
  · intro h
    simp [MonopolePropagationBP.getFieldAtPosition, h]
  · intro f msg hf herr
    simp [MonopolePropagationBP.getFieldAtPosition, hf, herr]

/-- Witness for C10 at a concrete position, with an absent field and with
a field that always throws. -/
theorem C10_witness :
    (({ field := none, tolerance := 1/2, minStep := 1, maxStep := 2 } :
        MonopolePropagationBP).getFieldAtPosition ⟨1, 2, 3⟩ 0 = 0) ∧
    (({ field := some fun _ _ => Except.error "field failure", tolerance := 1/2,
        minStep := 1, maxStep := 2 } :
        MonopolePropagationBP).getFieldAtPosition ⟨1, 2, 3⟩ 0 = 0) :=
  ⟨(C10_field_failure_gives_zero _ ⟨1, 2, 3⟩ 0).1 rfl,
   (C10_field_failure_gives_zero _ ⟨1, 2, 3⟩ 0).2 _ "field failure" rfl rfl⟩

/-- Counterexample to claim C7: setLorentzFactor clamps the Lorentz
factor, not the energy, so a Lorentz factor of 0 on a particle of
positive mass stores the negative energy -pmass*c^2. -/
theorem C7_counterexample :
    ((⟨4110000, 0, 0, ⟨1, 0, 0⟩, 1, 0, 1⟩ : ParticleState).setLorentzFactor 0).energy
      < 0 := by
  simp only [ParticleState.setLorentzFactor, c_squared, c_light]
  norm_num

/-- Claim C7 (amended): setEnergy stores max(0, e) and so never leaves a
negative energy, for every input value; setLorentzFactor clamps only the
Lorentz factor to max(0, lf) and stores energy (max(0,lf) - 1)*pmass*c^2,
which is non-negative whenever lf is at least 1 and pmass is
non-negative, but is negative for lf below 1 on a positive mass. -/
theorem C7_amended (s : ParticleState) (e lf : ℝ) :
    ((s.setEnergy e).energy = max 0 e ∧ 0 ≤ (s.setEnergy e).energy) ∧
    ((s.setLorentzFactor lf).energy = (max 0 lf - 1) * s.pmass * c_squared ∧
      (1 ≤ lf → 0 ≤ s.pmass → 0 ≤ (s.setLorentzFactor lf).energy)) := by
  refine ⟨⟨rfl, le_max_left _ _⟩, rfl, fun h1 hm => ?_⟩
  have hmax : max 0 lf = lf := max_eq_right (by linarith)
  have hc : (0:ℝ) ≤ c_squared := by norm_num [c_squared, c_light]
  simp only [ParticleState.setLorentzFactor, hmax]
  have : (0:ℝ) ≤ lf - 1 := by linarith
  positivity

/-- Witness for C7 (amended) at a concrete state, energy and Lorentz
factor. -/
theorem C7_amended_witness :
    (((⟨4110000, 5, 0, ⟨1, 0, 0⟩, 2, 0, 1⟩ : ParticleState).setEnergy (-3)).energy
        = max 0 (-3) ∧
      0 ≤ ((⟨4110000, 5, 0, ⟨1, 0, 0⟩, 2, 0, 1⟩ : ParticleState).setEnergy (-3)).energy) ∧
    (((⟨4110000, 5, 0, ⟨1, 0, 0⟩, 2, 0, 1⟩ : ParticleState).setLorentzFactor 3).energy
        = (max 0 3 - 1) * 2 * c_squared ∧
      (1 ≤ (3:ℝ) → 0 ≤ (2:ℝ) →
        0 ≤ ((⟨4110000, 5, 0, ⟨1, 0, 0⟩, 2, 0, 1⟩ : ParticleState).setLorentzFactor 3).energy)) := by
  have h := C7_amended (⟨4110000, 5, 0, ⟨1, 0, 0⟩, 2, 0, 1⟩ : ParticleState) (-3) 3
  exact ⟨h.1, h.2.1, fun _ _ => h.2.2 (by norm_num) (by norm_num)⟩

theorem Vector3d.dot_smul (a b : Vector3d) (c : ℝ) :
    a.dot (b * c) = a.dot b * c := by
  simp only [Vector3d.dot, Vector3d.smul_def]
  ring

/-- Claim C5: for every candidate with non-zero magnetic charge whose
step-control loop accepted a step of length st, process succeeds, the new
position is the accepted yOut.x, and the new energy is the old energy
plus dE = mcharge * (B . direction) * st clamped to be non-negative,
where B is the field sampled at the new position and direction is the new
direction. -/
theorem C5_monopole_energy_update (bp : MonopolePropagationBP) (fuel : ℕ)
    (cand : Candidate) (yOut : Y) (st ns : ℝ)
    (hg : cand.current.mcharge ≠ 0)
    (hl : bp.loopOutcome fuel cand = LoopResult.accepted yOut st ns) :
    (bp.process fuel cand).isSome = true ∧
    ∀ c1, bp.process fuel cand = some c1 →
      c1.current.position = yOut.x ∧
      c1.current.energy = max 0 (cand.current.energy +
        cand.current.mcharge *
          ((bp.getFieldAtPosition c1.current.position cand.redshift).dot
            c1.current.direction) * st) := by
  have hproc : bp.process fuel cand = some
      { cand with
        previous := cand.current
        current := ((cand.current.setPosition yOut.x).setDirection
            yOut.u.getUnitVector).setEnergy
          (((cand.current.setPosition yOut.x).setDirection yOut.u.getUnitVector).energy +
            cand.current.mcharge *
              (bp.getFieldAtPosition ((cand.current.setPosition yOut.x).setDirection
                yOut.u.getUnitVector).position cand.redshift).dot
                (((cand.current.setPosition yOut.x).setDirection
                  yOut.u.getUnitVector).direction * st))
        currentStep := st
        nextStep := ns } := by
    unfold MonopolePropagationBP.process
    rw [if_neg hg, hl]
  refine ⟨by rw [hproc]; rfl, fun c1 hc1 => ?_⟩
  rw [hproc] at hc1
  injection hc1 with hc1
  subst hc1
  simp only [ParticleState.setEnergy, ParticleState.setDirection, ParticleState.setPosition]
  exact ⟨by simp, by rw [Vector3d.dot_smul]; ring_nf⟩

/-- Witness for C5: a monopole in fixed-step mode with no field; the
accepted phase point is computed explicitly and the hypotheses are
discharged on it. -/
theorem C5_witness :
    ((⟨⟨4110000, 5, 0, ⟨1, 0, 0⟩, 1, 0, 1⟩, ⟨4110000, 5, 0, ⟨1, 0, 0⟩, 1, 0, 1⟩,
        0, 1, 0, [], 0⟩ : Candidate).current.mcharge ≠ 0) ∧
    ((({ field := none, tolerance := 1/2, minStep := 1, maxStep := 1 } :
        MonopolePropagationBP).process 1
      (⟨⟨4110000, 5, 0, ⟨1, 0, 0⟩, 1, 0, 1⟩, ⟨4110000, 5, 0, ⟨1, 0, 0⟩, 1, 0, 1⟩,
        0, 1, 0, [], 0⟩ : Candidate)).isSome = true) := by
  have hl : ({ field := none, tolerance := 1/2, minStep := 1, maxStep := 1 } :
      MonopolePropagationBP).loopOutcome 1
      (⟨⟨4110000, 5, 0, ⟨1, 0, 0⟩, 1, 0, 1⟩, ⟨4110000, 5, 0, ⟨1, 0, 0⟩, 1, 0, 1⟩,
        0, 1, 0, [], 0⟩ : Candidate) =
      LoopResult.accepted ⟨⟨1, 0, 0⟩, ⟨1, 0, 0⟩⟩ 1 1 := by
    simp only [MonopolePropagationBP.loopOutcome, MonopolePropagationBP.tryStep,
      MonopolePropagationBP.dY, MonopolePropagationBP.getFieldAtPosition, if_pos rfl]
    norm_num [Vector3d.add_def, Vector3d.smul_def, Vector3d.zero_def]
  refine ⟨by norm_num, ?_⟩
  exact (C5_monopole_energy_update _ 1 _ ⟨⟨1, 0, 0⟩, ⟨1, 0, 0⟩⟩ 1 1 (by norm_num) hl).1

/-- Claim C6: setDirection renormalizes every non-zero argument to unit
norm, and after every integrator call the candidate direction has unit
norm, given that the incoming direction is unit (neutral fast path) and
that the accepted direction of the step-control loop is non-zero
(monopole path). -/
theorem C6_unit_direction :
    (∀ (s : ParticleState) (v : Vector3d), v ≠ 0 →
      (s.setDirection v).direction.getR = 1) ∧
    (∀ (bp : MonopolePropagationBP) (fuel : ℕ) (cand : Candidate),
      cand.current.direction.getR = 1 →
      (∀ yOut st ns, bp.loopOutcome fuel cand = LoopResult.accepted yOut st ns →
        yOut.u ≠ 0) →
      ∀ c1, bp.process fuel cand = some c1 → c1.current.direction.getR = 1) := by
  constructor
  · intro s v hv
    exact Vector3d.getR_getUnitVector v hv
  · intro bp fuel cand hdir hloop c1 hproc
    by_cases hg : cand.current.mcharge = 0
    · unfold MonopolePropagationBP.process at hproc
      rw [if_pos hg] at hproc
      injection hproc with hproc
      subst hproc
      exact hdir
    · unfold MonopolePropagationBP.process at hproc
      rw [if_neg hg] at hproc
      cases hL : bp.loopOutcome fuel cand with
      | fuelOut => rw [hL] at hproc; exact absurd hproc (by simp)
      | accepted yOut st ns =>
        rw [hL] at hproc
        injection hproc with hproc
        subst hproc
        have hu : yOut.u ≠ 0 := hloop yOut st ns hL
        have hw : yOut.u.getUnitVector.getR = 1 := Vector3d.getR_getUnitVector _ hu
        show (yOut.u.getUnitVector / yOut.u.getUnitVector.getR).getR = 1
        rw [hw, Vector3d.getR_div _ 1 zero_le_one, hw, div_one]

/-- Witness for C6: a concrete renormalization and a concrete neutral
candidate stepped once through the integrator. -/
theorem C6_witness :
    ((⟨22, 5, 0, ⟨1, 0, 0⟩, 0, 0, 0⟩ : ParticleState).setDirection
      ⟨3, 0, 0⟩).direction.getR = 1 ∧
    (∀ c1, ({ field := none, tolerance := 1/2, minStep := 1, maxStep := 1 } :
        MonopolePropagationBP).process 1
        (⟨⟨22, 5, 0, ⟨1, 0, 0⟩, 0, 0, 0⟩, ⟨22, 5, 0, ⟨1, 0, 0⟩, 0, 0, 0⟩,
          0, 1, 0, [], 0⟩ : Candidate) = some c1 →
      c1.current.direction.getR = 1) := by
  constructor
  · exact C6_unit_direction.1 _ ⟨3, 0, 0⟩ (by
      intro h
      rw [Vector3d.zero_def] at h
      injection h with h1 h2 h3
      norm_num at h1)
  · refine C6_unit_direction.2 _ 1 _ ?_ ?_
    · show Real.sqrt (1 * 1 + 0 * 0 + 0 * 0) = 1
      norm_num
    · intro yOut st ns hL
      have hL1 : ({ field := none, tolerance := 1/2, minStep := 1, maxStep := 1 } :
          MonopolePropagationBP).loopOutcome 1
          (⟨⟨22, 5, 0, ⟨1, 0, 0⟩, 0, 0, 0⟩, ⟨22, 5, 0, ⟨1, 0, 0⟩, 0, 0, 0⟩,
            0, 1, 0, [], 0⟩ : Candidate) =
          LoopResult.accepted ⟨⟨1, 0, 0⟩, ⟨1, 0, 0⟩⟩ 1 1 := by
        simp only [MonopolePropagationBP.loopOutcome, MonopolePropagationBP.tryStep,
          MonopolePropagationBP.dY, MonopolePropagationBP.getFieldAtPosition, if_pos rfl]
        norm_num [Vector3d.add_def, Vector3d.smul_def, Vector3d.zero_def]
      rw [hL1] at hL
      injection hL with h1 h2 h3
      subst h1
      intro h
      rw [Vector3d.zero_def] at h
      injection h with hx hy hz
      norm_num at hx

/-- Claim C9: a candidate whose boosted log10 Lorentz factor lies
strictly outside [lgmin, lgmax] is returned unchanged by the
ElasticScattering module (no interaction, no secondaries, no error); a
value exactly at the lower or upper bound does not trigger the
out-of-range guard, and the interpolated rate there equals the tabulated
endpoint value. -/
theorem C9_out_of_range_no_effect :
    (∀ (es : ElasticScattering) (draws : List ESDraw) (cand : Candidate),
      (Real.logb 10 (cand.current.getLorentzFactor * (1 + cand.redshift)) <
          ElasticScattering.lgmin ∨
        ElasticScattering.lgmax <
          Real.logb 10 (cand.current.getLorentzFactor * (1 + cand.redshift))) →
      es.process draws cand = cand) ∧
    (∀ tab : List ℝ,
      interpolateEquidistant ElasticScattering.lgmin ElasticScattering.lgmin
        ElasticScattering.lgmax tab = tab.headD 0 ∧
      interpolateEquidistant ElasticScattering.lgmax ElasticScattering.lgmin
        ElasticScattering.lgmax tab = tab.getLastD 0) ∧
    ¬ (ElasticScattering.lgmin < ElasticScattering.lgmin ∨
        ElasticScattering.lgmax < ElasticScattering.lgmin) ∧
    ¬ (ElasticScattering.lgmax < ElasticScattering.lgmin ∨
        ElasticScattering.lgmax < ElasticScattering.lgmax) := by
  refine ⟨?_, ?_, ?_, ?_⟩
  · intro es draws cand h
    by_cases hn : isNucleus cand.current.id = true
    · simp only [ElasticScattering.process]
      rw [if_neg (by simp [hn]), if_pos h]
    · simp only [ElasticScattering.process]
      rw [if_pos (by simp [hn])]
  · intro tab
    constructor
    · rw [interpolateEquidistant, if_pos le_rfl]
    · rw [interpolateEquidistant,
        if_neg (by norm_num [ElasticScattering.lgmin, ElasticScattering.lgmax])]
      rw [if_pos le_rfl]
  · norm_num [ElasticScattering.lgmin, ElasticScattering.lgmax]
  · norm_num [ElasticScattering.lgmin, ElasticScattering.lgmax]

/-- Witness for C9: a candidate at Lorentz factor 1, whose boosted log10
Lorentz factor 0 is below lgmin, is returned unchanged. -/
theorem C9_witness :
    (⟨fun _ => 1, [2, 2], "elastic"⟩ : ElasticScattering).process []
      (⟨⟨1000010020, 0, 0, ⟨1, 0, 0⟩, 1, 0, 0⟩,
        ⟨1000010020, 0, 0, ⟨1, 0, 0⟩, 1, 0, 0⟩, 1, 1, 0, [], 0⟩ : Candidate) =
      (⟨⟨1000010020, 0, 0, ⟨1, 0, 0⟩, 1, 0, 0⟩,
        ⟨1000010020, 0, 0, ⟨1, 0, 0⟩, 1, 0, 0⟩, 1, 1, 0, [], 0⟩ : Candidate) := by
  refine C9_out_of_range_no_effect.1 _ [] _ (Or.inl ?_)
  have hlf : (⟨1000010020, 0, 0, ⟨1, 0, 0⟩, 1, 0, 0⟩ :
      ParticleState).getLorentzFactor = 1 := by
    simp [ParticleState.getLorentzFactor]
  rw [show (⟨⟨1000010020, 0, 0, ⟨1, 0, 0⟩, 1, 0, 0⟩,
        ⟨1000010020, 0, 0, ⟨1, 0, 0⟩, 1, 0, 0⟩, 1, 1, 0, [], 0⟩ : Candidate).redshift
      = 0 from rfl, hlf]
  norm_num [ElasticScattering.lgmin]

/-- Counterexample to claim C3: with rate 1, remaining step 1 and the
uniform draw exp(-1), the free path -ln(U)/rate equals the remaining
step exactly, yet the module records an interaction (one secondary
photon) instead of producing none. -/
theorem C3_counterexample :
    -Real.log (Real.exp (-1)) /
      (⟨fun _ => 1, [2, 2], "elastic"⟩ : ElasticScattering).rate 6 0 2 1 1 = 1 ∧
    ((⟨fun _ => 1, [2, 2], "elastic"⟩ : ElasticScattering).process
      [⟨Real.exp (-1), 0, 1/2, 1/2, 1/2⟩]
      (⟨⟨1000010020, 999999, 0, ⟨1, 0, 0⟩, 1 / c_squared, 0, 0⟩,
        ⟨1000010020, 999999, 0, ⟨1, 0, 0⟩, 1 / c_squared, 0, 0⟩,
        1, 1, 0, [], 0⟩ : Candidate)).secondaries.length = 1 := by
  have hcsq : c_squared ≠ 0 := by norm_num [c_squared, c_light]
  have hrate : (⟨fun _ => 1, [2, 2], "elastic"⟩ : ElasticScattering).rate 6 0 2 1 1
      = 1 := by
    unfold ElasticScattering.rate interpolateEquidistant
      ElasticScattering.lgmin ElasticScattering.lgmax
    norm_num [List.headD]
  have hfree : -Real.log (Real.exp (-1)) /
      (⟨fun _ => 1, [2, 2], "elastic"⟩ : ElasticScattering).rate 6 0 2 1 1 = 1 := by
    rw [hrate, Real.log_exp]
    norm_num
  refine ⟨hfree, ?_⟩
  have hlf : (⟨1000010020, 999999, 0, ⟨1, 0, 0⟩, 1 / c_squared, 0, 0⟩ :
      ParticleState).getLorentzFactor = 1000000 := by
    unfold ParticleState.getLorentzFactor
    rw [show (⟨1000010020, 999999, 0, ⟨1, 0, 0⟩, 1 / c_squared, 0, 0⟩ :
      ParticleState).pmass = 1 / c_squared from rfl]
    field_simp
    norm_num
  have hlg : Real.logb 10
      ((⟨1000010020, 999999, 0, ⟨1, 0, 0⟩, 1 / c_squared, 0, 0⟩ :
        ParticleState).getLorentzFactor * (1 + 0)) = 6 := by
    rw [hlf]
    norm_num
    rw [show (1000000 : ℝ) = (10 : ℝ) ^ ((6 : ℕ) : ℝ) by
      rw [Real.rpow_natCast]; norm_num]
    exact Real.logb_rpow (by norm_num) (by norm_num)
  have hA : massNumber 1000010020 = 2 := by decide
  have hZ : chargeNumber 1000010020 = 1 := by decide
  simp only [ElasticScattering.process]
  rw [if_neg (by decide)]
  rw [if_neg (by rw [hlg]; norm_num [ElasticScattering.lgmin, ElasticScattering.lgmax])]
  simp only [List.nil_append, hlg, hA, hZ]
  simp only [ElasticScattering.loop]
  rw [if_pos (by norm_num : (0:ℝ) < 1)]
  rw [show (2 : ℤ) - 1 = 1 from rfl]
  rw [if_neg (by rw [hfree]; norm_num)]
  simp [ElasticScattering.loop]

/-- Claim C3 (amended): for every nucleus candidate whose boosted log10
Lorentz factor lies in the tabulated range, process appends the
secondaries produced by the interaction loop; each pass of the loop
computes the rate as the interpolated tabulated value scaled by Z*N/A and
by (1+z)^2 times the background redshift scaling, draws
freePath = -ln(U)/rate, produces no interaction this step when the
remaining step is strictly smaller than freePath (at exact equality an
interaction still occurs), and otherwise appends one secondary photon,
reduces the remaining step by freePath and repeats, so a single step may
contain multiple interactions. -/
theorem C3_amended_interaction_loop :
    (∀ (es : ElasticScattering) (draws : List ESDraw) (cand : Candidate),
      isNucleus cand.current.id = true →
      ¬ (Real.logb 10 (cand.current.getLorentzFactor * (1 + cand.redshift)) <
            ElasticScattering.lgmin ∨
          ElasticScattering.lgmax <
            Real.logb 10 (cand.current.getLorentzFactor * (1 + cand.redshift))) →
      es.process draws cand = { cand with secondaries := cand.secondaries ++
        (es.loop (Real.logb 10 (cand.current.getLorentzFactor * (1 + cand.redshift)))
          cand.redshift cand.current.getLorentzFactor
          (massNumber cand.current.id) (chargeNumber cand.current.id)
          (massNumber cand.current.id - chargeNumber cand.current.id)
          cand.previous.position cand.current.position draws cand.currentStep) }) ∧
    (∀ (es : ElasticScattering) (lg z : ℝ) (A Z N : ℤ),
      es.rate lg z A Z N =
        interpolateEquidistant lg ElasticScattering.lgmin ElasticScattering.lgmax
          es.tabRate * ((Z * N : ℤ) : ℝ) / (A : ℝ) * ((1 + z) ^ 2 * es.scaling z)) ∧
    (∀ (es : ElasticScattering) (lg z lf : ℝ) (A Z N : ℤ)
      (prevPos curPos : Vector3d) (d : ESDraw) (rest : List ESDraw) (step : ℝ),
      0 < step →
      (step < -Real.log d.u / es.rate lg z A Z N →
        es.loop lg z lf A Z N prevPos curPos (d :: rest) step = []) ∧
      (-Real.log d.u / es.rate lg z A Z N ≤ step →
        es.loop lg z lf A Z N prevPos curPos (d :: rest) step =
          es.secondaryOf lf prevPos curPos d ::
            es.loop lg z lf A Z N prevPos curPos rest
              (step - -Real.log d.u / es.rate lg z A Z N))) := by
  refine ⟨?_, fun es lg z A Z N => rfl, ?_⟩
  · intro es draws cand hn hlg
    simp only [ElasticScattering.process]
    rw [if_neg (by simp [hn]), if_neg hlg]
  · intro es lg z lf A Z N prevPos curPos d rest step hstep
    constructor
    · intro hfar
      simp only [ElasticScattering.loop]
      rw [if_pos hstep, if_pos hfar]
    · intro hnear
      simp only [ElasticScattering.loop]
      rw [if_pos hstep, if_neg (not_lt.mpr hnear)]

/-- Witness for C3 (amended): one pass of the loop at rate 1 with the
free path exactly equal to the remaining step records one interaction. -/
theorem C3_amended_witness :
    (0:ℝ) < 1 ∧
    (⟨fun _ => 1, [2, 2], "elastic"⟩ : ElasticScattering).loop 6 0 1000000 2 1 1
        0 0 [⟨Real.exp (-1), 0, 1/2, 1/2, 1/2⟩] 1 =
      (⟨fun _ => 1, [2, 2], "elastic"⟩ : ElasticScattering).secondaryOf 1000000 0 0
          ⟨Real.exp (-1), 0, 1/2, 1/2, 1/2⟩ ::
        (⟨fun _ => 1, [2, 2], "elastic"⟩ : ElasticScattering).loop 6 0 1000000 2 1 1
          0 0 []
          (1 - -Real.log (Real.exp (-1)) /
            (⟨fun _ => 1, [2, 2], "elastic"⟩ : ElasticScattering).rate 6 0 2 1 1) := by
  have hrate : (⟨fun _ => 1, [2, 2], "elastic"⟩ : ElasticScattering).rate 6 0 2 1 1
      = 1 := by
    unfold ElasticScattering.rate interpolateEquidistant
      ElasticScattering.lgmin ElasticScattering.lgmax
    norm_num [List.headD]
  refine ⟨by norm_num, ?_⟩
  refine ((C3_amended_interaction_loop.2.2 _ 6 0 1000000 2 1 1 0 0
    ⟨Real.exp (-1), 0, 1/2, 1/2, 1/2⟩ [] 1 (by norm_num)).2 ?_)
  have hfree : -Real.log (Real.exp (-1)) /
      (⟨fun _ => 1, [2, 2], "elastic"⟩ : ElasticScattering).rate 6 0 2 1 1 = 1 := by
    rw [hrate, Real.log_exp]
    norm_num
  exact le_of_eq hfree

/-- Claim C1 (amended): in adaptive mode, one iteration of the
step-control loop with r = error / tolerance behaves as follows: if r > 1
and the current step h equals minStep, the step is accepted anyway with
proposal h; if r > 1 and h differs from minStep, the step is shrunk to
max(h * max(0.95 * r^-0.2, 0.1), minStep) and retried; if r <= 1 the
result is accepted and the proposed next step is
min(min(h * 0.95 * r^-0.2, 5h), maxStep) when h differs from maxStep (and
stays h when h = maxStep); the proposal never exceeds 5h or maxStep, but
it is not clamped below by h and can be smaller than h. -/
theorem C1_step_control (bp : MonopolePropagationBP) (yIn : Y) (z m g : ℝ)
    (n : ℕ) (step : ℝ) (hstep : 0 < step) :
    (1 < (bp.tryStep yIn step z m g).2 / bp.tolerance → step = bp.minStep →
      bp.adaptiveLoop yIn z m g (n + 1) step =
        LoopResult.accepted (bp.tryStep yIn step z m g).1 step step) ∧
    (1 < (bp.tryStep yIn step z m g).2 / bp.tolerance → step ≠ bp.minStep →
      bp.adaptiveLoop yIn z m g (n + 1) step =
        bp.adaptiveLoop yIn z m g n
          (max (step * max (0.95 *
              ((bp.tryStep yIn step z m g).2 / bp.tolerance) ^ (-(0.2:ℝ))) 0.1)
            bp.minStep)) ∧
    ((bp.tryStep yIn step z m g).2 / bp.tolerance ≤ 1 →
      bp.adaptiveLoop yIn z m g (n + 1) step =
        LoopResult.accepted (bp.tryStep yIn step z m g).1 step
          (if step ≠ bp.maxStep
            then bp.proposeGrow step ((bp.tryStep yIn step z m g).2 / bp.tolerance)
            else step) ∧
      bp.proposeGrow step ((bp.tryStep yIn step z m g).2 / bp.tolerance) ≤ 5 * step ∧
      bp.proposeGrow step ((bp.tryStep yIn step z m g).2 / bp.tolerance) ≤
        bp.maxStep) := by
  refine ⟨?_, ?_, ?_⟩
  · intro hr hmin
    simp only [MonopolePropagationBP.adaptiveLoop]
    rw [if_pos hr, if_pos hmin]
  · intro hr hmin
    simp only [MonopolePropagationBP.adaptiveLoop]
    rw [if_pos hr, if_neg hmin]
    congr 1
    rw [mul_max_of_nonneg _ _ hstep.le]
    ring_nf
  · intro hr
    refine ⟨?_, ?_, ?_⟩
    · simp only [MonopolePropagationBP.adaptiveLoop]
      rw [if_neg (not_lt.mpr hr)]
    · unfold MonopolePropagationBP.proposeGrow
      split
      · exact min_le_left _ _
      · exact le_trans (min_le_left _ _) (min_le_right _ _)
    · unfold MonopolePropagationBP.proposeGrow
      split
      · exact min_le_right _ _
      · exact min_le_right _ _

/-- Evaluation of tryStep in the concrete adaptive scenario used against
claim C1: a unit-mass-energy monopole in the linear field
B(pos) = (0, 0, 6 * pos.x), attempting step 1 from the origin; the error
estimate is exactly 1/2. -/
theorem C1_tryStep_eval :
    bpLin.tryStep ⟨0, ⟨1, 0, 0⟩⟩ 1 0 (1 / c_squared) 1 =
      (⟨⟨1, 0, 3/2⟩, ⟨1, 0, 3⟩⟩, 1/2) := by
  have hcsq : c_squared ≠ 0 := by norm_num [c_squared, c_light]
  have hfac : (1:ℝ) * 1 / (1 / c_squared) / c_squared = 1 := by
    field_simp
  have hfach : (1:ℝ) * (1/2) / (1 / c_squared) / c_squared = 1/2 := by
    field_simp
    ring
  simp only [bpLin, MonopolePropagationBP.tryStep, MonopolePropagationBP.dY,
    MonopolePropagationBP.getFieldAtPosition, MonopolePropagationBP.errorEstimation,
    Vector3d.add_def, Vector3d.smul_def, Vector3d.sub_def, Vector3d.zero_x,
    Vector3d.zero_y, Vector3d.zero_z, hfac, hfach]
  norm_num [Vector3d.getR]
  rw [show (9:ℝ) = 3 ^ 2 by norm_num, show (64:ℝ) = 8 ^ 2 by norm_num,
    Real.sqrt_sq (by norm_num : (0:ℝ) ≤ 3), Real.sqrt_sq (by norm_num : (0:ℝ) ≤ 8)]
  norm_num

/-- Counterexample to claim C1: in the concrete adaptive scenario with
r = error / tolerance = 1 exactly, the loop accepts step 1 but proposes
next step 0.95, which is smaller than the accepted step and differs from
the clamp(h * min(0.95 * r^-0.2, 5), h, maxStep) = 1 stated by the
claim. -/
theorem C1_counterexample :
    bpLin.adaptiveLoop ⟨0, ⟨1, 0, 0⟩⟩ 0 (1 / c_squared) 1 1 1 =
      LoopResult.accepted ⟨⟨1, 0, 3/2⟩, ⟨1, 0, 3⟩⟩ 1 0.95 ∧
    (0.95 : ℝ) < 1 ∧
    clip (1 * min (0.95 *
        ((bpLin.tryStep ⟨0, ⟨1, 0, 0⟩⟩ 1 0 (1 / c_squared) 1).2 /
          bpLin.tolerance) ^ (-(0.2:ℝ))) 5) 1 bpLin.maxStep = 1 := by
  refine ⟨?_, by norm_num, ?_⟩
  · simp only [MonopolePropagationBP.adaptiveLoop, C1_tryStep_eval]
    norm_num [bpLin, MonopolePropagationBP.proposeGrow, Real.one_rpow, min_def]
  · rw [C1_tryStep_eval]
    norm_num [bpLin, clip, Real.one_rpow, min_def, max_def]

/-- Witness for C1 (amended): the accepted branch of the step-control
loop applied at the concrete scenario with r = 1. -/
theorem C1_witness :
    (0:ℝ) < 1 ∧
    bpLin.adaptiveLoop ⟨0, ⟨1, 0, 0⟩⟩ 0 (1 / c_squared) 1 (0 + 1) 1 =
      LoopResult.accepted (bpLin.tryStep ⟨0, ⟨1, 0, 0⟩⟩ 1 0 (1 / c_squared) 1).1 1
        (if (1:ℝ) ≠ bpLin.maxStep
          then bpLin.proposeGrow 1
            ((bpLin.tryStep ⟨0, ⟨1, 0, 0⟩⟩ 1 0 (1 / c_squared) 1).2 / bpLin.tolerance)
          else 1) := by
  refine ⟨by norm_num,
    ((C1_step_control bpLin ⟨0, ⟨1, 0, 0⟩⟩ 0 (1 / c_squared) 1 0 1 (by norm_num)).2.2
      ?_).1⟩
  rw [C1_tryStep_eval]
  norm_num [bpLin]

/-- Counterexample to claim C4: with secondary photons requested
(havePhotons = true) and thinning 1/2 > 0, processing a magnetically
charged candidate appends no secondary at all, because the
photon-sampling and thinning block of the source is commented out; no
secondary is ever accepted with probability f^thinning or enqueued with
weight w1 / f^thinning. -/
theorem C4_counterexample :
    mrThin.havePhotons = true ∧ (0:ℝ) < mrThin.thinning ∧
    (mrThin.process candMono).secondaries = [] := by
  refine ⟨rfl, by norm_num [mrThin], ?_⟩
  simp only [MonopoleRadiation.process]
  rw [if_neg (by norm_num [candMono])]
  rfl

/-- Claim C4 (amended): MonopoleRadiation::process never appends a
secondary, even when thinning > 0 and secondary photons are requested,
because the sampling and thinning block is disabled (commented out) in
the source; for a magnetically charged candidate, process only records
the radiated energy dE = step * dEdx, clamps the energy to
max(0, E - dE), and limits the next step to limit * E / dEdx. -/
theorem C4_no_secondaries (mr : MonopoleRadiation) (cand : Candidate) :
    (mr.process cand).secondaries = cand.secondaries ∧
    (cand.current.mcharge ≠ 0 →
      mr.process cand = { cand with
        stepRadiation := cand.currentStep / (1 + cand.redshift) * mr.dEdxOf cand
        current := cand.current.setEnergy (cand.current.energy -
          cand.currentStep / (1 + cand.redshift) * mr.dEdxOf cand)
        nextStep := min cand.nextStep
          (mr.limit * cand.current.energy / mr.dEdxOf cand) }) := by
  by_cases h : |cand.current.mcharge| = 0
  · refine ⟨?_, fun hg => absurd (abs_eq_zero.mp h) hg⟩
    simp only [MonopoleRadiation.process]
    rw [if_pos h]
  · constructor
    · simp only [MonopoleRadiation.process]
      rw [if_neg h]
    · intro hg
      simp only [MonopoleRadiation.process]
      rw [if_neg h]

/-- Witness for C4 (amended) at the concrete thinning-enabled module and
magnetically charged candidate. -/
theorem C4_witness :
    (mrThin.process candMono).secondaries = candMono.secondaries ∧
    mrThin.process candMono = { candMono with
      stepRadiation := candMono.currentStep / (1 + candMono.redshift) *
        mrThin.dEdxOf candMono
      current := candMono.current.setEnergy (candMono.current.energy -
        candMono.currentStep / (1 + candMono.redshift) * mrThin.dEdxOf candMono)
      nextStep := min candMono.nextStep
        (mrThin.limit * candMono.current.energy / mrThin.dEdxOf candMono) } :=
  ⟨(C4_no_secondaries mrThin candMono).1,
   (C4_no_secondaries mrThin candMono).2 (by norm_num [candMono])⟩

/-- Claim C8: the photon candidate placed at the origin with direction
(1,0,0), propagated with minStep = maxStep = 1 in a zero field for 10
steps, ends at position (10,0,0) with direction and energy unchanged and
an empty secondaries list; the elastic-scattering and radiation modules
leave it untouched; and in general every neutral-particle step advances
the position rectilinearly by direction * clip(nextStep, minStep,
maxStep) while preserving direction and energy. -/
theorem C8_neutral_scenario :
    bp8.run 1 10 cand8 = some (cand8at 10) ∧
    (cand8at 10).current.position = ⟨10, 0, 0⟩ ∧
    (cand8at 10).current.direction = cand8.current.direction ∧
    (cand8at 10).current.energy = cand8.current.energy ∧
    (cand8at 10).secondaries = [] ∧
    es8.process [] (cand8at 10) = cand8at 10 ∧
    mr8.process (cand8at 10) = cand8at 10 ∧
    (∀ (bp : MonopolePropagationBP) (fuel : ℕ) (cand : Candidate),
      cand.current.mcharge = 0 →
      ∀ c1, bp.process fuel cand = some c1 →
        c1.current.position = cand.current.position +
          cand.current.direction * clip cand.nextStep bp.minStep bp.maxStep ∧
        c1.current.direction = cand.current.direction ∧
        c1.current.energy = cand.current.energy) := by
  refine ⟨?_, by norm_num [cand8at], rfl, rfl, rfl, ?_, ?_, ?_⟩
  · calc bp8.run 1 10 cand8
        = bp8.run 1 9 (cand8at 1) := MonopolePropagationBP.run_succ bp8 1 9 _ _ bp8_step0
      _ = bp8.run 1 8 (cand8at 2) := MonopolePropagationBP.run_succ bp8 1 8 _ _ (bp8_step 1)
      _ = bp8.run 1 7 (cand8at 3) := MonopolePropagationBP.run_succ bp8 1 7 _ _ (bp8_step 2)
      _ = bp8.run 1 6 (cand8at 4) := MonopolePropagationBP.run_succ bp8 1 6 _ _ (bp8_step 3)
      _ = bp8.run 1 5 (cand8at 5) := MonopolePropagationBP.run_succ bp8 1 5 _ _ (bp8_step 4)
      _ = bp8.run 1 4 (cand8at 6) := MonopolePropagationBP.run_succ bp8 1 4 _ _ (bp8_step 5)
      _ = bp8.run 1 3 (cand8at 7) := MonopolePropagationBP.run_succ bp8 1 3 _ _ (bp8_step 6)
      _ = bp8.run 1 2 (cand8at 8) := MonopolePropagationBP.run_succ bp8 1 2 _ _ (bp8_step 7)
      _ = bp8.run 1 1 (cand8at 9) := MonopolePropagationBP.run_succ bp8 1 1 _ _ (bp8_step 8)
      _ = bp8.run 1 0 (cand8at 10) := MonopolePropagationBP.run_succ bp8 1 0 _ _ (bp8_step 9)
      _ = some (cand8at 10) := rfl
  · simp only [ElasticScattering.process]
    rw [if_pos (by decide)]
  · simp only [MonopoleRadiation.process]
    rw [if_pos (by norm_num [cand8at])]
  · intro bp fuel cand h c1 hc1
    rw [MonopolePropagationBP.process_neutral bp fuel cand h] at hc1
    injection hc1 with hc1
    subst hc1
    exact ⟨rfl, rfl, rfl⟩

/-- Witness for C8 at the first step of the concrete neutral scenario. -/
theorem C8_witness :
    (cand8at 1).current.position = cand8.current.position +
      cand8.current.direction * clip cand8.nextStep bp8.minStep bp8.maxStep ∧
    (cand8at 1).current.direction = cand8.current.direction ∧
    (cand8at 1).current.energy = cand8.current.energy :=
  C8_neutral_scenario.2.2.2.2.2.2.2 bp8 1 cand8 rfl (cand8at 1) bp8_step0

end CRPropa
